import Mathlib

/-
Verification development for the cleanup engine of `tasks/clean.py`
(invoke build-script cleanup tasks).

The Python module is embedded shallowly:

* The filesystem is a state `FSState`: the list of absolute paths that
  currently exist.  `rmtree_p` / `remove_p` model `path.Path.rmtree_p` and
  `path.Path.remove_p` (best effort removal, missing targets tolerated).
* `pystr_startswith s p` models Python `s.startswith(p)` — a purely lexical
  prefix test on the character sequences.
* External collaborators (the interpreter location `sys.executable`, the
  derived `python_basedir`, `os.path.abspath`, `pathlib` glob expansion,
  OS errors raised by `os.unlink`, and the external `py.cleanup` command run
  by `clean_python`) are collected in a `CleanEnv` record; the functions of
  `clean.py` are translated as state transformers over `FSState`, producing
  the list of stdout lines they print.
* `invoke` task contexts are records (`Ctx`), registries of cleanup
  contributors are ordered association lists, mirroring the ordered task
  collections `cleanup_tasks` / `cleanup_all_tasks`.
* `cleanup_files` may conceptually raise (dead code guarded by
  `if False and error_message`), so it returns an `Except`; the other tasks
  propagate that `Except`.
-/

/-- Filesystem state: the absolute paths that currently exist (directories
and files alike). -/
structure FSState where
  entries : List String
deriving DecidableEq

/-- Python `s.startswith(p)`: lexical prefix test on the character lists. -/
def pystr_startswith (s p : String) : Bool :=
  decide (p.data <+: s.data)

/-- An `os.error` raised by a filesystem primitive: exception class name and
message (`e.__class__.__name__`, `str(e)`). -/
structure OsError where
  className : String
  msg : String
deriving DecidableEq

/-- Model of `path.Path.rmtree_p`: remove the directory `p` and everything
below it; removing a missing directory is a no-op. -/
def rmtree_p (fs : FSState) (p : String) : FSState :=
  ⟨fs.entries.filter (fun e => !(e == p || pystr_startswith e (p ++ "/")))⟩

/-- Model of `path.Path.remove_p`: unlink the single file `p`; removing a
missing file is a no-op. -/
def remove_p (fs : FSState) (p : String) : FSState :=
  ⟨fs.entries.filter (fun e => !(e == p))⟩

/-- Ambient runtime environment of one invocation, bundling the external
collaborators of `clean.py`:

* `sys_executable`: Python `sys.executable`, the running interpreter path;
* `python_basedir`: the value
  `Path(Path(sys.executable).dirname()).joinpath("..").abspath()` computed at
  the top of `cleanup_dirs` / `cleanup_files` (the environment base);
* `abspath`: `Path.abspath()` (resolution against the process CWD);
* `path_glob`: the `path_glob` helper of `clean.py`, i.e. `pathlib` glob
  expansion of one pattern against a working directory, reading the current
  filesystem state;
* `remove_error`: which paths make `os.unlink` raise, and with what error;
* `run_py_cleanup`: the external `ctx.run("py.cleanup")` command invoked by
  `clean_python` (arbitrary filesystem effect plus output). -/
structure CleanEnv where
  sys_executable : String
  python_basedir : String
  abspath : String → String
  path_glob : FSState → String → String → List String
  remove_error : String → Option OsError
  run_py_cleanup : FSState → FSState × List String

/-- Loop state of `cleanup_dirs`: filesystem, stdout lines so far, and the
`warn2_counter` throttling the second SKIP-SUICIDE diagnostic. -/
abbrev DirState := FSState × List String × Nat

/-- Body of the per-candidate loop of `cleanup_dirs` (clean.py lines
137-153): safety gate (interpreter-prefix rule, then environment-base rule
with a diagnostic throttled to the first five hits), then dry-run or actual
`rmtree_p`. -/
def cleanup_dirs_step (env : CleanEnv) (dry_run : Bool) (st : DirState)
    (directory : String) : DirState :=
  if pystr_startswith env.sys_executable (env.abspath directory) then
    (st.1,
     st.2.1 ++ ["SKIP-SUICIDE: \x27" ++ directory ++ "\x27 contains current python executable"],
     st.2.2)
  else if pystr_startswith (env.abspath directory) env.python_basedir then
    (st.1,
     (if st.2.2 ≤ 4 then st.2.1 ++ ["SKIP-SUICIDE: \x27" ++ directory ++ "\x27"] else st.2.1),
     st.2.2 + 1)
  else if dry_run then
    (st.1, st.2.1 ++ ["RMTREE: " ++ directory ++ " (dry-run)"], st.2.2)
  else
    (rmtree_p st.1 (env.abspath directory), st.2.1 ++ ["RMTREE: " ++ directory], st.2.2)

/-- The pattern loop of `cleanup_dirs`, run from an arbitrary loop state:
each pattern is expanded by `path_glob` against the filesystem reached so
far, and every candidate goes through `cleanup_dirs_step`. -/
def cleanup_dirs_run (env : CleanEnv) (dry_run : Bool) (workdir : String)
    (patterns : List String) (st : DirState) : DirState :=
  patterns.foldl
    (fun st dir_pat => (env.path_glob st.1 workdir dir_pat).foldl (cleanup_dirs_step env dry_run) st)
    st

/-- `cleanup_dirs(patterns, dry_run, workdir)` (clean.py lines 125-153):
remove directories matching the patterns, returning the final filesystem and
the stdout lines. -/
def cleanup_dirs (env : CleanEnv) (patterns : List String) (dry_run : Bool)
    (workdir : String) (fs : FSState) : FSState × List String :=
  let r := cleanup_dirs_run env dry_run workdir patterns (fs, [], 0)
  (r.1, r.2.1)

/-- Loop state of `cleanup_files`: filesystem, stdout lines, `error_count`,
and the retained first `error_message`. -/
abbrev FileState := FSState × List String × Nat × Option String

/-- Body of the per-candidate loop of `cleanup_files` (clean.py lines
168-184): silent environment-base skip, then dry-run or actual `remove_p`
with `os.error` caught, diagnosed, counted, and the first message retained. -/
def cleanup_files_step (env : CleanEnv) (dry_run : Bool) (st : FileState)
    (file_ : String) : FileState :=
  if pystr_startswith (env.abspath file_) env.python_basedir then
    st
  else if dry_run then
    (st.1, st.2.1 ++ ["REMOVE: " ++ file_ ++ " (dry-run)"], st.2.2.1, st.2.2.2)
  else
    match env.remove_error file_ with
    | none =>
      (remove_p st.1 (env.abspath file_), st.2.1 ++ ["REMOVE: " ++ file_], st.2.2.1, st.2.2.2)
    | some e =>
      (st.1,
       st.2.1 ++ ["REMOVE: " ++ file_,
                  e.className ++ ": " ++ e.msg ++ " basedir: " ++ env.python_basedir],
       st.2.2.1 + 1,
       some (st.2.2.2.getD (e.className ++ ": " ++ e.msg)))

/-- The pattern loop of `cleanup_files`, run from an arbitrary loop state. -/
def cleanup_files_run (env : CleanEnv) (dry_run : Bool) (workdir : String)
    (patterns : List String) (st : FileState) : FileState :=
  patterns.foldl
    (fun st file_pat =>
      (env.path_glob st.1 workdir file_pat).foldl (cleanup_files_step env dry_run) st)
    st

/-- `cleanup_files(patterns, dry_run, workdir)` (clean.py lines 155-187):
the final `if False and error_message: raise CleanupError(error_message)` is
dead code, modelled by the constant-false guard of the `Except.error`
branch. -/
def cleanup_files (env : CleanEnv) (patterns : List String) (dry_run : Bool)
    (workdir : String) (fs : FSState) : Except String FileState :=
  let r := cleanup_files_run env dry_run workdir patterns (fs, [], 0, none)
  if false && r.2.2.2.isSome then Except.error (r.2.2.2.getD "") else Except.ok r

/-- The `clean` option group of the invoke configuration. -/
structure CleanConfig where
  directories : List String
  files : List String
  extra_directories : List String
  extra_files : List String
deriving DecidableEq

/-- The `clean_all` option group of the invoke configuration. -/
structure CleanAllConfig where
  directories : List String
  files : List String
deriving DecidableEq

/-- The invoke context, restricted to the configuration the cleanup tasks
read.  Python mutates the configuration lists in place; the embedding
threads the context explicitly and returns the updated context. -/
structure Ctx where
  clean : CleanConfig
  clean_all : CleanAllConfig
deriving DecidableEq

/-- A registered cleanup contributor: a task honoring the contract
`clean(ctx, dry_run)`, acting on the filesystem and printing output. -/
abbrev Contributor : Type := Ctx → Bool → FSState → FSState × List String

/-- An ordered registry of cleanup contributors (an invoke `Collection`):
task name and callable, in registration order. -/
abbrev Registry : Type := List (String × Contributor)

/-- `execute_cleanup_tasks(ctx, cleanup_tasks, dry_run)` (clean.py lines
110-122): announce and run every registered contributor, in registration
order, threading the filesystem through. -/
def execute_cleanup_tasks (ctx : Ctx) (cleanup_tasks : Registry) (dry_run : Bool)
    (fs : FSState) : FSState × List String :=
  match cleanup_tasks with
  | [] => (fs, [])
  | (name, t) :: rest =>
    let r1 := t ctx dry_run fs
    let r2 := execute_cleanup_tasks ctx rest dry_run r1.1
    (r2.1, (("CLEANUP TASK: " ++ name) :: r1.2) ++ r2.2)

/-- The `clean` task (clean.py lines 64-82).  `ctx.clean.extra_directories
or []` only turns a missing/empty value into the empty list, which the list
model already represents; `list.extend` mutates the configuration lists in
place, so the updated lists are written back into the returned context, and
the contributors already see the extended lists. -/
def clean (env : CleanEnv) (cleanup_tasks : Registry) (ctx : Ctx) (dry_run : Bool)
    (fs : FSState) : Except String (Ctx × FSState × List String) :=
  let directories := ctx.clean.directories
  let files := ctx.clean.files
  let extra_directories := ctx.clean.extra_directories
  let extra_files := ctx.clean.extra_files
  let directories := if extra_directories.isEmpty then directories
                     else directories ++ extra_directories
  let files := if extra_files.isEmpty then files else files ++ extra_files
  let ctx := { ctx with
               clean := { ctx.clean with directories := directories, files := files } }
  let r1 := execute_cleanup_tasks ctx cleanup_tasks dry_run fs
  let r2 := cleanup_dirs env directories dry_run "." r1.1
  match cleanup_files env files dry_run "." r2.1 with
  | Except.error e => Except.error e
  | Except.ok r3 => Except.ok (ctx, r3.1, r1.2 ++ r2.2 ++ r3.2.1)

/-- The `clean-all` task (clean.py lines 85-93): clean-all directories, then
clean-all files, then the `cleanup_all_tasks` contributors, then the full
`clean` task as the final step. -/
def clean_all (env : CleanEnv) (cleanup_tasks cleanup_all_tasks : Registry)
    (ctx : Ctx) (dry_run : Bool) (fs : FSState) :
    Except String (Ctx × FSState × List String) :=
  let r1 := cleanup_dirs env ctx.clean_all.directories dry_run "." fs
  match cleanup_files env ctx.clean_all.files dry_run "." r1.1 with
  | Except.error e => Except.error e
  | Except.ok r2 =>
    let r3 := execute_cleanup_tasks ctx cleanup_all_tasks dry_run r2.1
    match clean env cleanup_tasks ctx dry_run r3.1 with
    | Except.error e => Except.error e
    | Except.ok r4 => Except.ok (r4.1, r4.2.1, r1.2 ++ r2.2.1 ++ r3.2 ++ r4.2.2)

/-- The `clean_python` task (clean.py lines 96-104): sweep build output and
bytecode caches; the external `py.cleanup` command runs only outside dry-run
mode. -/
def clean_python (env : CleanEnv) (dry_run : Bool) (fs : FSState) :
    Except String (FSState × List String) :=
  let r1 := cleanup_dirs env ["build", "dist", "*.egg-info", "**/__pycache__"] dry_run "." fs
  let r2 := if dry_run then (r1.1, ([] : List String)) else env.run_py_cleanup r1.1
  match cleanup_files env ["**/*.pyc", "**/*.pyo", "**/*$py.class"] dry_run "." r2.1 with
  | Except.error e => Except.error e
  | Except.ok r3 => Except.ok (r3.1, r1.2 ++ r2.2 ++ r3.2.1)

/-- The context produced by the in-place `list.extend` calls of `clean`:
base lists with the extras appended, extras unchanged. -/
def merged_ctx (ctx : Ctx) : Ctx :=
  ⟨⟨ctx.clean.directories ++ ctx.clean.extra_directories,
    ctx.clean.files ++ ctx.clean.extra_files,
    ctx.clean.extra_directories, ctx.clean.extra_files⟩,
   ctx.clean_all⟩

/-- Relation between a non-dry-run stdout line and its dry-run counterpart:
RMTREE/REMOVE lines get the dry-run suffix, diagnostics are unchanged. -/
def addDryRunSuffix (l : String) : String :=
  if pystr_startswith l "RMTREE: " || pystr_startswith l "REMOVE: " then l ++ " (dry-run)"
  else l

/-- The directory safety gate of `cleanup_dirs` fires on this candidate:
either the interpreter path extends the candidate, or the candidate lies
under the environment base. -/
def dir_gate_skips (env : CleanEnv) (directory : String) : Bool :=
  pystr_startswith env.sys_executable (env.abspath directory) ||
    pystr_startswith (env.abspath directory) env.python_basedir

/-- The file safety gate of `cleanup_files` fires on this candidate. -/
def file_gate_skips (env : CleanEnv) (file_ : String) : Bool :=
  pystr_startswith (env.abspath file_) env.python_basedir

/-- A file candidate on which `cleanup_files` cannot change the filesystem:
skipped by the gate, or its unlink raises. -/
def file_handled (env : CleanEnv) (file_ : String) : Bool :=
  file_gate_skips env file_ || (env.remove_error file_).isSome

/-- A concrete runtime environment for evaluating the model: interpreter
`/env/bin/python` inside environment base `/env`, `abspath` the identity
(all paths already absolute), glob expansion returning the pattern itself
as the single candidate (a literal path pattern), no unlink errors. -/
def envW : CleanEnv :=
  ⟨"/env/bin/python", "/env", fun s => s, fun _ _ pat => [pat], fun _ => none,
   fun fs => (fs, [])⟩

/-- Like `envW`, but unlinking `/work/locked.txt` raises a permission
error. -/
def envErr : CleanEnv :=
  ⟨"/env/bin/python", "/env", fun s => s, fun _ _ pat => [pat],
   fun f => if f == "/work/locked.txt"
            then some ⟨"OSError", "[Errno 13] Permission denied: /work/locked.txt"⟩
            else none,
   fun fs => (fs, [])⟩

/-- Like `envW`, but glob expansion checks existence: a literal pattern
matches itself exactly when it exists, so expansion is sound (matches exist)
and monotone in the filesystem. -/
def envSound : CleanEnv :=
  ⟨"/env/bin/python", "/env", fun s => s,
   fun fs _ pat => if pat ∈ fs.entries then [pat] else [],
   fun _ => none, fun fs => (fs, [])⟩

/-- A concrete context: base file patterns `*.log`, extra file patterns
`*.bak2`, everything else empty. -/
def ctxC : Ctx := ⟨⟨[], ["*.log"], [], ["*.bak2"]⟩, ⟨[], []⟩⟩

/-- A concrete cleanup contributor that prints one report line and leaves
the filesystem alone. -/
def contribA : Contributor := fun _ _ s => (s, ["docs cleanup done"])

/-- A concrete silent cleanup contributor. -/
def contribB : Contributor := fun _ _ s => (s, [])

/-- A concrete two-entry registry, registered in the order A then B. -/
def regW : Registry := [("clean_docs", contribA), ("clean_extra", contribB)]

/-- A concrete context whose only non-empty list is the base file list
`/work/a.log`. -/
def ctxS : Ctx := ⟨⟨[], ["/work/a.log"], [], []⟩, ⟨[], []⟩⟩

/-
Basic lemmas about the lexical prefix test and the removal primitives.
-/

theorem pystr_startswith_iff {s p : String} :
    pystr_startswith s p = true ↔ p.data <+: s.data := by
  simp [pystr_startswith]

theorem pystr_startswith_append (a b : String) :
    pystr_startswith (a ++ b) a = true := by
  rw [pystr_startswith_iff, String.data_append]
  exact List.prefix_append a.data b.data

theorem pystr_startswith_trans {a b c : String}
    (h1 : pystr_startswith b a = true) (h2 : pystr_startswith c b = true) :
    pystr_startswith c a = true := by
  rw [pystr_startswith_iff] at h1 h2 ⊢
  exact h1.trans h2

theorem pystr_startswith_total {a b c : String}
    (h1 : pystr_startswith c a = true) (h2 : pystr_startswith c b = true) :
    pystr_startswith a b = true ∨ pystr_startswith b a = true := by
  rw [pystr_startswith_iff] at h1 h2
  rw [pystr_startswith_iff, pystr_startswith_iff]
  exact List.prefix_or_prefix_of_prefix h2 h1

theorem mem_rmtree_p {fs : FSState} {p e : String} :
    e ∈ (rmtree_p fs p).entries ↔
      e ∈ fs.entries ∧ ¬(e = p ∨ pystr_startswith e (p ++ "/") = true) := by
  simp [rmtree_p, List.mem_filter]

theorem rmtree_p_subset (fs : FSState) (p : String) :
    (rmtree_p fs p).entries ⊆ fs.entries := by
  intro e he
  exact (mem_rmtree_p.mp he).1

theorem not_mem_rmtree_p_self (fs : FSState) (p : String) :
    p ∉ (rmtree_p fs p).entries := by
  intro h
  exact (mem_rmtree_p.mp h).2 (Or.inl rfl)

theorem mem_remove_p {fs : FSState} {p e : String} :
    e ∈ (remove_p fs p).entries ↔ e ∈ fs.entries ∧ e ≠ p := by
  simp [remove_p, List.mem_filter]

theorem remove_p_subset (fs : FSState) (p : String) :
    (remove_p fs p).entries ⊆ fs.entries := by
  intro e he
  exact (mem_remove_p.mp he).1

theorem not_mem_remove_p_self (fs : FSState) (p : String) :
    p ∉ (remove_p fs p).entries := by
  intro h
  exact (mem_remove_p.mp h).2 rfl

/-
Generic fold invariance, and monotonicity of the deleter loops: every loop
only shrinks the set of existing paths.
-/

theorem foldl_invariant {α β : Type} (f : α → β → α) (P : α → Prop)
    (h : ∀ st b, P st → P (f st b)) :
    ∀ (l : List β) (st : α), P st → P (l.foldl f st) := by
  intro l
  induction l with
  | nil => intro st hst; exact hst
  | cons b bs ih => intro st hst; exact ih (f st b) (h st b hst)

theorem cleanup_dirs_step_subset (env : CleanEnv) (dry_run : Bool)
    (st : DirState) (directory : String) :
    (cleanup_dirs_step env dry_run st directory).1.entries ⊆ st.1.entries := by
  unfold cleanup_dirs_step
  repeat' split
  all_goals first
    | exact rmtree_p_subset st.1 (env.abspath directory)
    | exact fun e he => he

theorem cleanup_dirs_fold_subset (env : CleanEnv) (dry_run : Bool)
    (l : List String) (st : DirState) :
    (l.foldl (cleanup_dirs_step env dry_run) st).1.entries ⊆ st.1.entries := by
  induction l generalizing st with
  | nil => exact fun e he => he
  | cons d ds ih =>
    intro e he
    exact cleanup_dirs_step_subset env dry_run st d
      (ih (cleanup_dirs_step env dry_run st d) he)

theorem cleanup_dirs_run_subset (env : CleanEnv) (dry_run : Bool)
    (workdir : String) (patterns : List String) (st : DirState) :
    (cleanup_dirs_run env dry_run workdir patterns st).1.entries ⊆ st.1.entries := by
  induction patterns generalizing st with
  | nil => exact fun e he => he
  | cons p ps ih =>
    intro e he
    unfold cleanup_dirs_run at he
    rw [List.foldl_cons] at he
    exact cleanup_dirs_fold_subset env dry_run (env.path_glob st.1 workdir p) st
      (ih _ he)

theorem cleanup_files_step_subset (env : CleanEnv) (dry_run : Bool)
    (st : FileState) (file_ : String) :
    (cleanup_files_step env dry_run st file_).1.entries ⊆ st.1.entries := by
  unfold cleanup_files_step
  repeat' split
  all_goals first
    | exact remove_p_subset st.1 (env.abspath file_)
    | exact fun e he => he

theorem cleanup_files_fold_subset (env : CleanEnv) (dry_run : Bool)
    (l : List String) (st : FileState) :
    (l.foldl (cleanup_files_step env dry_run) st).1.entries ⊆ st.1.entries := by
  induction l generalizing st with
  | nil => exact fun e he => he
  | cons f fsl ih =>
    intro e he
    exact cleanup_files_step_subset env dry_run st f
      (ih (cleanup_files_step env dry_run st f) he)

theorem cleanup_files_run_subset (env : CleanEnv) (dry_run : Bool)
    (workdir : String) (patterns : List String) (st : FileState) :
    (cleanup_files_run env dry_run workdir patterns st).1.entries ⊆ st.1.entries := by
  induction patterns generalizing st with
  | nil => exact fun e he => he
  | cons p ps ih =>
    intro e he
    unfold cleanup_files_run at he
    rw [List.foldl_cons] at he
    exact cleanup_files_fold_subset env dry_run (env.path_glob st.1 workdir p) st
      (ih _ he)

/-
The dead `raise` of `cleanup_files` never fires: the function always
returns normally.
-/

theorem cleanup_files_eq_ok (env : CleanEnv) (patterns : List String)
    (dry_run : Bool) (workdir : String) (fs : FSState) :
    cleanup_files env patterns dry_run workdir fs =
      Except.ok (cleanup_files_run env dry_run workdir patterns (fs, [], 0, none)) := rfl

/-
Unfolding lemmas for the orchestrators.
-/

theorem execute_cleanup_tasks_nil (ctx : Ctx) (dry_run : Bool) (fs : FSState) :
    execute_cleanup_tasks ctx [] dry_run fs = (fs, []) := rfl

theorem execute_cleanup_tasks_cons (ctx : Ctx) (name : String) (t : Contributor)
    (rest : Registry) (dry_run : Bool) (fs : FSState) :
    execute_cleanup_tasks ctx ((name, t) :: rest) dry_run fs =
      ((execute_cleanup_tasks ctx rest dry_run (t ctx dry_run fs).1).1,
       (("CLEANUP TASK: " ++ name) :: (t ctx dry_run fs).2) ++
         (execute_cleanup_tasks ctx rest dry_run (t ctx dry_run fs).1).2) := rfl

theorem clean_eq (env : CleanEnv) (reg : Registry) (ctx : Ctx) (dry_run : Bool)
    (fs : FSState) :
    clean env reg ctx dry_run fs =
      Except.ok
        (merged_ctx ctx,
         (cleanup_files_run env dry_run "." (merged_ctx ctx).clean.files
           ((cleanup_dirs env (merged_ctx ctx).clean.directories dry_run "."
             (execute_cleanup_tasks (merged_ctx ctx) reg dry_run fs).1).1, [], 0, none)).1,
         (execute_cleanup_tasks (merged_ctx ctx) reg dry_run fs).2 ++
           (cleanup_dirs env (merged_ctx ctx).clean.directories dry_run "."
             (execute_cleanup_tasks (merged_ctx ctx) reg dry_run fs).1).2 ++
           (cleanup_files_run env dry_run "." (merged_ctx ctx).clean.files
             ((cleanup_dirs env (merged_ctx ctx).clean.directories dry_run "."
               (execute_cleanup_tasks (merged_ctx ctx) reg dry_run fs).1).1, [], 0, none)).2.1) := by
  obtain ⟨⟨d, f, ed, ef⟩, ca⟩ := ctx
  cases ed <;> cases ef <;>
    simp [clean, merged_ctx, cleanup_files_eq_ok]

/-
Preservation of entries that the running interpreter path extends: the
directory deleter can never delete them, whatever the patterns matched.
-/

theorem cleanup_dirs_step_preserves_exe (env : CleanEnv) (dry_run : Bool)
    (st : DirState) (d e : String) (he : e ∈ st.1.entries)
    (hexe : pystr_startswith env.sys_executable e = true) :
    e ∈ (cleanup_dirs_step env dry_run st d).1.entries := by
  unfold cleanup_dirs_step
  by_cases h1 : pystr_startswith env.sys_executable (env.abspath d) = true
  · simp only [h1, if_true]
    exact he
  · simp only [h1, if_false, Bool.false_eq_true]
    by_cases h2 : pystr_startswith (env.abspath d) env.python_basedir = true
    · simp only [h2, if_true]
      exact he
    · simp only [h2, if_false, Bool.false_eq_true]
      cases dry_run with
      | true => exact he
      | false =>
        simp only [Bool.false_eq_true, if_false]
        refine mem_rmtree_p.mpr ⟨he, ?_⟩
        rintro (rfl | hp)
        · exact h1 hexe
        · exact h1 (pystr_startswith_trans (pystr_startswith_append (env.abspath d) "/")
            (pystr_startswith_trans hp hexe))

theorem cleanup_dirs_fold_preserves_exe (env : CleanEnv) (dry_run : Bool)
    (l : List String) (st : DirState) (e : String) (he : e ∈ st.1.entries)
    (hexe : pystr_startswith env.sys_executable e = true) :
    e ∈ (l.foldl (cleanup_dirs_step env dry_run) st).1.entries := by
  induction l generalizing st with
  | nil => exact he
  | cons d ds ih =>
    exact ih (cleanup_dirs_step env dry_run st d)
      (cleanup_dirs_step_preserves_exe env dry_run st d e he hexe)

theorem cleanup_dirs_run_preserves_exe (env : CleanEnv) (dry_run : Bool)
    (workdir : String) (patterns : List String) (st : DirState) (e : String)
    (he : e ∈ st.1.entries)
    (hexe : pystr_startswith env.sys_executable e = true) :
    e ∈ (cleanup_dirs_run env dry_run workdir patterns st).1.entries := by
  induction patterns generalizing st with
  | nil => exact he
  | cons p ps ih =>
    unfold cleanup_dirs_run
    rw [List.foldl_cons]
    exact ih _ (cleanup_dirs_fold_preserves_exe env dry_run _ st e he hexe)

/-- Claim C1: for every pattern list, working directory, and filesystem
state, `cleanup_dirs` never removes a candidate path P that the running
interpreter path extends; such a candidate is skipped, leaving the
filesystem untouched, and the SKIP-SUICIDE "contains current python
executable" diagnostic is emitted.  First conjunct: the per-candidate step
on such a candidate only appends the diagnostic.  Second conjunct: across a
whole `cleanup_dirs` run, every existing path that is a prefix of the
interpreter path survives. -/
theorem c1_cleanup_dirs_protects_running_executable :
    (∀ (env : CleanEnv) (dry_run : Bool) (st : DirState) (directory : String),
       pystr_startswith env.sys_executable (env.abspath directory) = true →
       cleanup_dirs_step env dry_run st directory =
         (st.1,
          st.2.1 ++
            ["SKIP-SUICIDE: \x27" ++ directory ++ "\x27 contains current python executable"],
          st.2.2)) ∧
    (∀ (env : CleanEnv) (patterns : List String) (dry_run : Bool) (workdir : String)
       (fs : FSState) (e : String),
       e ∈ fs.entries → pystr_startswith env.sys_executable e = true →
       e ∈ (cleanup_dirs env patterns dry_run workdir fs).1.entries) := by
  constructor
  · intro env dry_run st directory h
    unfold cleanup_dirs_step
    simp only [h, if_true]
  · intro env patterns dry_run workdir fs e he hexe
    exact cleanup_dirs_run_preserves_exe env dry_run workdir patterns (fs, [], 0) e he hexe

/-- Witness for C1 at a concrete input: deleting `/env/bin` is refused
because the interpreter `/env/bin/python` lives under it; the diagnostic is
printed and the interpreter path survives the run. -/
theorem c1_witness :
    cleanup_dirs_step envW false (⟨["/env/bin/python", "/work/tmp"]⟩, [], 0) "/env/bin" =
      (⟨["/env/bin/python", "/work/tmp"]⟩,
       ["SKIP-SUICIDE: \x27/env/bin\x27 contains current python executable"], 0) ∧
    "/env/bin/python" ∈
      (cleanup_dirs envW ["/env/bin"] false "." ⟨["/env/bin/python", "/work/tmp"]⟩).1.entries :=
  ⟨c1_cleanup_dirs_protects_running_executable.1 envW false
      (⟨["/env/bin/python", "/work/tmp"]⟩, [], 0) "/env/bin" (by decide),
   c1_cleanup_dirs_protects_running_executable.2 envW ["/env/bin"] false "."
      ⟨["/env/bin/python", "/work/tmp"]⟩ "/env/bin/python" (by decide) (by decide)⟩

/-- Claim C10: the safety gate is a raw string-prefix comparison with no
path-separator boundary.  First conjunct: the file deleter silently skips
any candidate whose absolute path is the environment-base string followed by
an arbitrary suffix (including a sibling such as `<base>-other`).  Second
conjunct: the directory deleter denies (with the "contains current
executable" diagnostic) any candidate whose absolute path is a plain string
prefix of the interpreter path, even one cut mid-component.  Third
conjunct: the directory deleter leaves the filesystem untouched on any
candidate extending the environment-base string. -/
theorem c10_gate_is_raw_lexical_comparison :
    (∀ (env : CleanEnv) (dry_run : Bool) (st : FileState) (file_ tail : String),
       env.abspath file_ = env.python_basedir ++ tail →
       cleanup_files_step env dry_run st file_ = st) ∧
    (∀ (env : CleanEnv) (dry_run : Bool) (st : DirState) (directory tail : String),
       env.sys_executable = env.abspath directory ++ tail →
       cleanup_dirs_step env dry_run st directory =
         (st.1,
          st.2.1 ++
            ["SKIP-SUICIDE: \x27" ++ directory ++ "\x27 contains current python executable"],
          st.2.2)) ∧
    (∀ (env : CleanEnv) (dry_run : Bool) (st : DirState) (directory tail : String),
       env.abspath directory = env.python_basedir ++ tail →
       (cleanup_dirs_step env dry_run st directory).1 = st.1) := by
  refine ⟨?_, ?_, ?_⟩
  · intro env dry_run st file_ tail h
    unfold cleanup_files_step
    rw [h]
    simp only [pystr_startswith_append, if_true]
  · intro env dry_run st directory tail h
    unfold cleanup_dirs_step
    rw [h]
    simp only [pystr_startswith_append, if_true]
  · intro env dry_run st directory tail h
    unfold cleanup_dirs_step
    rw [h]
    simp only [pystr_startswith_append, if_true]
    split <;> rfl

/-- Witness for C10 at concrete inputs: the sibling file `/env-other` of the
environment base `/env` is skipped silently; the truncated string
`/env/bin/pyth` (not a path component boundary) of the interpreter
`/env/bin/python` is denied; the sibling directory `/env-other` is never
removed. -/
theorem c10_witness :
    cleanup_files_step envW false (⟨["/env-other"]⟩, [], 0, none) "/env-other" =
      (⟨["/env-other"]⟩, [], 0, none) ∧
    cleanup_dirs_step envW false (⟨["/env-other"]⟩, [], 0) "/env/bin/pyth" =
      (⟨["/env-other"]⟩,
       ["SKIP-SUICIDE: \x27/env/bin/pyth\x27 contains current python executable"], 0) ∧
    (cleanup_dirs_step envW false (⟨["/env-other"]⟩, [], 0) "/env-other").1 =
      ⟨["/env-other"]⟩ :=
  ⟨c10_gate_is_raw_lexical_comparison.1 envW false (⟨["/env-other"]⟩, [], 0, none)
      "/env-other" "-other" (by decide),
   c10_gate_is_raw_lexical_comparison.2.1 envW false (⟨["/env-other"]⟩, [], 0)
      "/env/bin/pyth" "on" (by decide),
   c10_gate_is_raw_lexical_comparison.2.2 envW false (⟨["/env-other"]⟩, [], 0)
      "/env-other" "-other" (by decide)⟩

/-
Preservation of entries under the environment base.  For the directory
deleter this needs the (true in reality) fact that the environment base is
itself a string prefix of the interpreter path; the file deleter needs no
such hypothesis since it unlinks single paths only.
-/

theorem cleanup_dirs_step_preserves_basedir (env : CleanEnv) (dry_run : Bool)
    (st : DirState) (d e : String)
    (hbe : pystr_startswith env.sys_executable env.python_basedir = true)
    (he : e ∈ st.1.entries)
    (hb : pystr_startswith e env.python_basedir = true) :
    e ∈ (cleanup_dirs_step env dry_run st d).1.entries := by
  unfold cleanup_dirs_step
  by_cases h1 : pystr_startswith env.sys_executable (env.abspath d) = true
  · simp only [h1, if_true]
    exact he
  · simp only [h1, if_false, Bool.false_eq_true]
    by_cases h2 : pystr_startswith (env.abspath d) env.python_basedir = true
    · simp only [h2, if_true]
      exact he
    · simp only [h2, if_false, Bool.false_eq_true]
      cases dry_run with
      | true => exact he
      | false =>
        simp only [Bool.false_eq_true, if_false]
        refine mem_rmtree_p.mpr ⟨he, ?_⟩
        rintro (rfl | hp)
        · exact h2 hb
        · rcases pystr_startswith_total hb hp with hc | hc
          · -- the slash-extended candidate is a prefix of the base
            exact h1 (pystr_startswith_trans
              (pystr_startswith_trans (pystr_startswith_append (env.abspath d) "/") hc) hbe)
          · -- the base is a prefix of the slash-extended candidate
            rw [pystr_startswith_iff, String.data_append] at hc
            rcases List.prefix_concat_iff.mp
                (by simpa using hc) with hc2 | hc2
            · have hd : pystr_startswith env.python_basedir (env.abspath d) = true := by
                rw [pystr_startswith_iff, hc2]
                exact List.prefix_append _ _
              exact h1 (pystr_startswith_trans hd hbe)
            · exact h2 (pystr_startswith_iff.mpr hc2)

theorem cleanup_dirs_run_preserves_basedir (env : CleanEnv) (dry_run : Bool)
    (workdir : String) (patterns : List String) (st : DirState) (e : String)
    (hbe : pystr_startswith env.sys_executable env.python_basedir = true)
    (he : e ∈ st.1.entries)
    (hb : pystr_startswith e env.python_basedir = true) :
    e ∈ (cleanup_dirs_run env dry_run workdir patterns st).1.entries := by
  induction patterns generalizing st with
  | nil => exact he
  | cons p ps ih =>
    unfold cleanup_dirs_run
    rw [List.foldl_cons]
    refine ih _ ?_
    have : ∀ (l : List String) (st : DirState), e ∈ st.1.entries →
        e ∈ (l.foldl (cleanup_dirs_step env dry_run) st).1.entries := by
      intro l
      induction l with
      | nil => intro st hst; exact hst
      | cons d ds ihl =>
        intro st hst
        exact ihl _ (cleanup_dirs_step_preserves_basedir env dry_run st d e hbe hst hb)
    exact this _ st he

theorem cleanup_files_step_preserves_basedir (env : CleanEnv) (dry_run : Bool)
    (st : FileState) (f e : String) (he : e ∈ st.1.entries)
    (hb : pystr_startswith e env.python_basedir = true) :
    e ∈ (cleanup_files_step env dry_run st f).1.entries := by
  unfold cleanup_files_step
  by_cases h1 : pystr_startswith (env.abspath f) env.python_basedir = true
  · simp only [h1, if_true]
    exact he
  · simp only [h1, if_false, Bool.false_eq_true]
    cases dry_run with
    | true => exact he
    | false =>
      simp only [Bool.false_eq_true, if_false]
      cases henv : env.remove_error f with
      | none =>
        refine mem_remove_p.mpr ⟨he, ?_⟩
        rintro rfl
        exact h1 hb
      | some err => exact he

theorem cleanup_files_run_preserves_basedir (env : CleanEnv) (dry_run : Bool)
    (workdir : String) (patterns : List String) (st : FileState) (e : String)
    (he : e ∈ st.1.entries)
    (hb : pystr_startswith e env.python_basedir = true) :
    e ∈ (cleanup_files_run env dry_run workdir patterns st).1.entries := by
  induction patterns generalizing st with
  | nil => exact he
  | cons p ps ih =>
    unfold cleanup_files_run
    rw [List.foldl_cons]
    refine ih _ ?_
    have : ∀ (l : List String) (st : FileState), e ∈ st.1.entries →
        e ∈ (l.foldl (cleanup_files_step env dry_run) st).1.entries := by
      intro l
      induction l with
      | nil => intro st hst; exact hst
      | cons f fl ihl =>
        intro st hst
        exact ihl _ (cleanup_files_step_preserves_basedir env dry_run st f e hst hb)
    exact this _ st he

/-- Counterexample to claim C2 as stated: with six candidate directories
under the environment base `/env`, none is removed, but the SKIP-SUICIDE
diagnostic appears only for the first five — the `warn2_counter` throttle
suppresses the diagnostic for `/env/a6`, so the directory deleter does not
emit a diagnostic for every environment-base path. -/
theorem c2_counterexample :
    cleanup_dirs envW ["/env/a1", "/env/a2", "/env/a3", "/env/a4", "/env/a5", "/env/a6"]
        false "." ⟨["/env/a1", "/env/a2", "/env/a3", "/env/a4", "/env/a5", "/env/a6"]⟩ =
      (⟨["/env/a1", "/env/a2", "/env/a3", "/env/a4", "/env/a5", "/env/a6"]⟩,
       ["SKIP-SUICIDE: \x27/env/a1\x27", "SKIP-SUICIDE: \x27/env/a2\x27",
        "SKIP-SUICIDE: \x27/env/a3\x27", "SKIP-SUICIDE: \x27/env/a4\x27",
        "SKIP-SUICIDE: \x27/env/a5\x27"]) ∧
    ((cleanup_dirs envW ["/env/a1", "/env/a2", "/env/a3", "/env/a4", "/env/a5", "/env/a6"]
        false "." ⟨["/env/a1", "/env/a2", "/env/a3", "/env/a4", "/env/a5", "/env/a6"]⟩).2.all
      (fun l => !(decide ("a6".data <:+: l.data)))) = true := by
  constructor
  · decide
  · decide

/-- Claim C2, amended: neither deleter ever removes a path whose absolute
form starts with the environment base; the file deleter skips such
candidates silently, and the directory deleter skips them while emitting the
SKIP-SUICIDE diagnostic only for the first five environment-base skips of
the invocation (the `warn2_counter` throttle suppresses later ones;
candidates that are also string prefixes of the interpreter path are
diagnosed by the unthrottled first gate rule instead).  Conjuncts: the file
step leaves the whole loop state unchanged; the dir step on a throttled-gate
candidate keeps the filesystem, appends the diagnostic exactly when the
counter is at most four, and bumps the counter; any environment-base entry
survives a whole `cleanup_dirs` run (given the base is a prefix of the
interpreter path, as it is in reality) and a whole `cleanup_files` run. -/
theorem c2_no_deleter_removes_under_basedir :
    (∀ (env : CleanEnv) (dry_run : Bool) (st : FileState) (file_ : String),
       pystr_startswith (env.abspath file_) env.python_basedir = true →
       cleanup_files_step env dry_run st file_ = st) ∧
    (∀ (env : CleanEnv) (dry_run : Bool) (st : DirState) (directory : String),
       pystr_startswith (env.abspath directory) env.python_basedir = true →
       pystr_startswith env.sys_executable (env.abspath directory) = false →
       cleanup_dirs_step env dry_run st directory =
         (st.1,
          (if st.2.2 ≤ 4 then st.2.1 ++ ["SKIP-SUICIDE: \x27" ++ directory ++ "\x27"]
           else st.2.1),
          st.2.2 + 1)) ∧
    (∀ (env : CleanEnv) (patterns : List String) (dry_run : Bool) (workdir : String)
       (fs : FSState) (e : String),
       pystr_startswith env.sys_executable env.python_basedir = true →
       e ∈ fs.entries → pystr_startswith e env.python_basedir = true →
       e ∈ (cleanup_dirs env patterns dry_run workdir fs).1.entries) ∧
    (∀ (env : CleanEnv) (patterns : List String) (dry_run : Bool) (workdir : String)
       (fs : FSState) (e : String),
       e ∈ fs.entries → pystr_startswith e env.python_basedir = true →
       ∃ st, cleanup_files env patterns dry_run workdir fs = Except.ok st ∧
         e ∈ st.1.entries) := by
  refine ⟨?_, ?_, ?_, ?_⟩
  · intro env dry_run st file_ h
    unfold cleanup_files_step
    simp only [h, if_true]
  · intro env dry_run st directory h h1
    unfold cleanup_dirs_step
    simp only [h1, h, Bool.false_eq_true, if_false, if_true]
  · intro env patterns dry_run workdir fs e hbe he hb
    exact cleanup_dirs_run_preserves_basedir env dry_run workdir patterns (fs, [], 0) e hbe he hb
  · intro env patterns dry_run workdir fs e he hb
    exact ⟨cleanup_files_run env dry_run workdir patterns (fs, [], 0, none),
           cleanup_files_eq_ok env patterns dry_run workdir fs,
           cleanup_files_run_preserves_basedir env dry_run workdir patterns
             (fs, [], 0, none) e he hb⟩

/-- Witness for C2 (amended) at concrete inputs: the file `/env/lib/x.pyc`
under the base is skipped silently; the sixth environment-base directory
candidate is skipped with the diagnostic suppressed (counter 5 > 4); the
entry `/env/lib` survives a directory run and a file run over patterns
matching it. -/
theorem c2_witness :
    cleanup_files_step envW false (⟨["/env/lib/x.pyc"]⟩, [], 0, none) "/env/lib/x.pyc" =
      (⟨["/env/lib/x.pyc"]⟩, [], 0, none) ∧
    cleanup_dirs_step envW false (⟨["/env/lib"]⟩, [], 5) "/env/a6" =
      (⟨["/env/lib"]⟩, [], 6) ∧
    "/env/lib" ∈ (cleanup_dirs envW ["/env/lib"] false "." ⟨["/env/lib"]⟩).1.entries ∧
    (∃ st, cleanup_files envW ["/env/lib"] false "." ⟨["/env/lib"]⟩ = Except.ok st ∧
       "/env/lib" ∈ st.1.entries) :=
  ⟨c2_no_deleter_removes_under_basedir.1 envW false (⟨["/env/lib/x.pyc"]⟩, [], 0, none)
      "/env/lib/x.pyc" (by decide),
   c2_no_deleter_removes_under_basedir.2.1 envW false (⟨["/env/lib"]⟩, [], 5) "/env/a6"
      (by decide) (by decide),
   c2_no_deleter_removes_under_basedir.2.2.1 envW ["/env/lib"] false "." ⟨["/env/lib"]⟩
      "/env/lib" (by decide) (by decide) (by decide),
   c2_no_deleter_removes_under_basedir.2.2.2 envW ["/env/lib"] false "." ⟨["/env/lib"]⟩
      "/env/lib" (by decide) (by decide)⟩

/-- Claim C8: when a per-file unlink fails with a filesystem error, the
error is caught: the step prints the REMOVE line and then a diagnostic built
from the error class name, increments the error count, retains the first
error message, and leaves the filesystem unchanged; the batch then simply
continues on the remaining candidates, and `cleanup_files` always returns
normally (the aggregate re-raise is dead code). -/
theorem c8_cleanup_files_error_handling :
    (∀ (env : CleanEnv) (patterns : List String) (dry_run : Bool) (workdir : String)
       (fs : FSState),
       ∃ st, cleanup_files env patterns dry_run workdir fs = Except.ok st) ∧
    (∀ (env : CleanEnv) (st : FileState) (file_ : String) (err : OsError),
       env.remove_error file_ = some err →
       pystr_startswith (env.abspath file_) env.python_basedir = false →
       cleanup_files_step env false st file_ =
         (st.1,
          st.2.1 ++ ["REMOVE: " ++ file_,
                     err.className ++ ": " ++ err.msg ++ " basedir: " ++ env.python_basedir],
          st.2.2.1 + 1,
          some (st.2.2.2.getD (err.className ++ ": " ++ err.msg)))) ∧
    (∀ (env : CleanEnv) (dry_run : Bool) (st : FileState) (file_ : String)
       (rest : List String),
       (file_ :: rest).foldl (cleanup_files_step env dry_run) st =
         rest.foldl (cleanup_files_step env dry_run) (cleanup_files_step env dry_run st file_)) := by
  refine ⟨?_, ?_, ?_⟩
  · intro env patterns dry_run workdir fs
    exact ⟨cleanup_files_run env dry_run workdir patterns (fs, [], 0, none),
           cleanup_files_eq_ok env patterns dry_run workdir fs⟩
  · intro env st file_ err herr hskip
    unfold cleanup_files_step
    simp only [hskip, Bool.false_eq_true, if_false, herr]
  · intro env dry_run st file_ rest
    exact List.foldl_cons _ _

/-- Witness for C8 at a concrete input: unlinking `/work/locked.txt` raises
a permission error; the run still returns normally, the diagnostic carries
the class name `OSError`, the count is 1, the message is retained, and the
file is still present. -/
theorem c8_witness :
    (∃ st, cleanup_files envErr ["/work/locked.txt"] false "." ⟨["/work/locked.txt"]⟩ =
       Except.ok st) ∧
    cleanup_files_step envErr false (⟨["/work/locked.txt"]⟩, [], 0, none) "/work/locked.txt" =
      (⟨["/work/locked.txt"]⟩,
       ["REMOVE: /work/locked.txt",
        "OSError: [Errno 13] Permission denied: /work/locked.txt basedir: /env"],
       1,
       some "OSError: [Errno 13] Permission denied: /work/locked.txt") :=
  ⟨c8_cleanup_files_error_handling.1 envErr ["/work/locked.txt"] false "."
      ⟨["/work/locked.txt"]⟩,
   c8_cleanup_files_error_handling.2.1 envErr (⟨["/work/locked.txt"]⟩, [], 0, none)
      "/work/locked.txt" ⟨"OSError", "[Errno 13] Permission denied: /work/locked.txt"⟩
      (by decide) (by decide)⟩

/-- Claim C4: `clean_all` performs, in this exact order: delete the
`clean_all.directories` patterns via the directory deleter, delete the
`clean_all.files` patterns via the file deleter, invoke every contributor of
the `cleanup_all_tasks` registry, and finally run the full `clean`
orchestrator; the filesystem threads through the four phases in that order
and the output is their concatenation. -/
theorem c4_clean_all_order (env : CleanEnv) (cleanup_tasksR cleanup_all_tasksR : Registry)
    (ctx : Ctx) (dry_run : Bool) (fs : FSState) :
    ∃ fs1 o1 fs2 o2 cnt msg fs3 o3 ctx4 fs4 o4,
      cleanup_dirs env ctx.clean_all.directories dry_run "." fs = (fs1, o1) ∧
      cleanup_files env ctx.clean_all.files dry_run "." fs1 = Except.ok (fs2, o2, cnt, msg) ∧
      execute_cleanup_tasks ctx cleanup_all_tasksR dry_run fs2 = (fs3, o3) ∧
      clean env cleanup_tasksR ctx dry_run fs3 = Except.ok (ctx4, fs4, o4) ∧
      clean_all env cleanup_tasksR cleanup_all_tasksR ctx dry_run fs =
        Except.ok (ctx4, fs4, o1 ++ o2 ++ o3 ++ o4) := by
  refine ⟨_, _, _, _, _, _, _, _, _, _, _, rfl,
    cleanup_files_eq_ok env ctx.clean_all.files dry_run "." _, rfl,
    clean_eq env cleanup_tasksR ctx dry_run _, ?_⟩
  simp only [clean_all, cleanup_files_eq_ok, clean_eq]
  rfl

/-- Claim C5: the `clean` orchestrator builds its effective pattern lists by
appending the extras to the base lists at execution time — the directory
deleter receives `directories ++ extra_directories` and the file deleter
receives `files ++ extra_files`, so extras augment and never replace the
base lists. -/
theorem c5_extras_augment_base_lists (env : CleanEnv) (reg : Registry) (ctx : Ctx)
    (dry_run : Bool) (fs : FSState) :
    ∃ fs1 o1 fs2 o2 st3,
      execute_cleanup_tasks (merged_ctx ctx) reg dry_run fs = (fs1, o1) ∧
      cleanup_dirs env (ctx.clean.directories ++ ctx.clean.extra_directories)
          dry_run "." fs1 = (fs2, o2) ∧
      cleanup_files env (ctx.clean.files ++ ctx.clean.extra_files) dry_run "." fs2 =
        Except.ok st3 ∧
      clean env reg ctx dry_run fs = Except.ok (merged_ctx ctx, st3.1, o1 ++ o2 ++ st3.2.1) ∧
      (merged_ctx ctx).clean.directories =
        ctx.clean.directories ++ ctx.clean.extra_directories ∧
      (merged_ctx ctx).clean.files = ctx.clean.files ++ ctx.clean.extra_files := by
  refine ⟨_, _, _, _, _, rfl, rfl,
    cleanup_files_eq_ok env (ctx.clean.files ++ ctx.clean.extra_files) dry_run "." _,
    ?_, rfl, rfl⟩
  rw [clean_eq]
  rfl

/-- Counterexample to claim C6 as stated: starting from the configuration
with base file list `["*.log"]` and extra file list `["*.bak2"]`, the
in-place `list.extend` of `clean` leaks back: after `clean` returns, the
`clean.files` list of the context is `["*.log", "*.bak2"]`, no longer equal to
the original base list. -/
theorem c6_counterexample :
    clean envW [] ctxC false ⟨[]⟩ =
      Except.ok ((⟨⟨[], ["*.log", "*.bak2"], [], ["*.bak2"]⟩, ⟨[], []⟩⟩ : Ctx), (⟨[]⟩ : FSState),
                 ["REMOVE: *.log", "REMOVE: *.bak2"]) ∧
    ((⟨⟨[], ["*.log", "*.bak2"], [], ["*.bak2"]⟩, ⟨[], []⟩⟩ : Ctx).clean.files ≠
       ctxC.clean.files) := by
  constructor
  · rfl
  · decide

/-- Claim C6, amended: the base/extra merge of `clean` is an in-place
`list.extend`, so it does leak into the configuration lists of the invocation:
after `clean` returns, `clean.directories` and `clean.files` are the base
lists with the extras appended (the original base entries are still present,
unchanged, as a prefix, and the extra lists themselves are unchanged) — the
base lists are not restored to their pre-invocation value. -/
theorem c6_merge_extends_configuration_in_place (env : CleanEnv) (reg : Registry)
    (ctx : Ctx) (dry_run : Bool) (fs : FSState) :
    ∃ fsr o,
      clean env reg ctx dry_run fs = Except.ok (merged_ctx ctx, fsr, o) ∧
      (merged_ctx ctx).clean.directories =
        ctx.clean.directories ++ ctx.clean.extra_directories ∧
      (merged_ctx ctx).clean.files = ctx.clean.files ++ ctx.clean.extra_files ∧
      ctx.clean.directories <+: (merged_ctx ctx).clean.directories ∧
      ctx.clean.files <+: (merged_ctx ctx).clean.files ∧
      (merged_ctx ctx).clean.extra_directories = ctx.clean.extra_directories ∧
      (merged_ctx ctx).clean.extra_files = ctx.clean.extra_files :=
  ⟨_, _, clean_eq env reg ctx dry_run fs, rfl, rfl,
   List.prefix_append _ _, List.prefix_append _ _, rfl, rfl⟩

/-
The announcement lines of `execute_cleanup_tasks` list the registry in
registration order, provided no contributor prints announcement-shaped
lines itself.
-/

theorem execute_cleanup_tasks_announcements (dry_run : Bool) (reg : Registry)
    (h : ∀ p ∈ reg, ∀ (c : Ctx) (d : Bool) (s : FSState) (l : String),
           l ∈ ((p.2 : Contributor) c d s).2 →
           pystr_startswith l "CLEANUP TASK: " = false) :
    ∀ (ctx : Ctx) (fs : FSState),
      (execute_cleanup_tasks ctx reg dry_run fs).2.filter
          (fun l => pystr_startswith l "CLEANUP TASK: ") =
        reg.map (fun p => "CLEANUP TASK: " ++ p.1) := by
  induction reg with
  | nil => intro ctx fs; rfl
  | cons p rest ih =>
    intro ctx fs
    obtain ⟨name, t⟩ := p
    rw [execute_cleanup_tasks_cons]
    have h1 : (t ctx dry_run fs).2.filter (fun l => pystr_startswith l "CLEANUP TASK: ") = [] := by
      rw [List.filter_eq_nil_iff]
      intro a ha
      simp only [Bool.not_eq_true]
      exact h (name, t) (List.mem_cons_self _ _) ctx dry_run fs a ha
    have h2 := ih (fun q hq => h q (List.mem_cons_of_mem _ hq)) ctx (t ctx dry_run fs).1
    dsimp only
    rw [List.cons_append,
        List.filter_cons_of_pos (by exact pystr_startswith_append "CLEANUP TASK: " name),
        List.filter_append, h1, h2, List.nil_append, List.map_cons]

/-- Claim C7: when `clean` runs, the contributors of the `cleanup_tasks`
registry are invoked in registration order, each announced by a
`CLEANUP TASK: <name>` line — the announcement lines are exactly the
registry names in order (provided contributors do not print
announcement-shaped lines themselves) — and all contributor output precedes
every RMTREE/REMOVE line of the direct deletions of the orchestrator: the
output of `clean` is the output of the contributor phase followed by the
output of the directory deleter followed by the output of the file deleter.  The first
conjunct is the step shape of the contributor loop (announce, run, then the
rest). -/
theorem c7_contributors_in_order_before_deleters :
    (∀ (ctx : Ctx) (name : String) (t : Contributor) (rest : Registry)
       (dry_run : Bool) (fs : FSState),
       execute_cleanup_tasks ctx ((name, t) :: rest) dry_run fs =
         ((execute_cleanup_tasks ctx rest dry_run (t ctx dry_run fs).1).1,
          (("CLEANUP TASK: " ++ name) :: (t ctx dry_run fs).2) ++
            (execute_cleanup_tasks ctx rest dry_run (t ctx dry_run fs).1).2)) ∧
    (∀ (dry_run : Bool) (reg : Registry),
       (∀ p ∈ reg, ∀ (c : Ctx) (d : Bool) (s : FSState) (l : String),
          l ∈ ((p.2 : Contributor) c d s).2 →
          pystr_startswith l "CLEANUP TASK: " = false) →
       ∀ (ctx : Ctx) (fs : FSState),
         (execute_cleanup_tasks ctx reg dry_run fs).2.filter
             (fun l => pystr_startswith l "CLEANUP TASK: ") =
           reg.map (fun p => "CLEANUP TASK: " ++ p.1)) ∧
    (∀ (env : CleanEnv) (reg : Registry) (ctx : Ctx) (dry_run : Bool) (fs : FSState),
       ∃ fsr dirsOut filesOut,
         clean env reg ctx dry_run fs =
           Except.ok (merged_ctx ctx, fsr,
             (execute_cleanup_tasks (merged_ctx ctx) reg dry_run fs).2 ++
               dirsOut ++ filesOut)) := by
  refine ⟨?_, ?_, ?_⟩
  · intro ctx name t rest dry_run fs
    exact execute_cleanup_tasks_cons ctx name t rest dry_run fs
  · intro dry_run reg h ctx fs
    exact execute_cleanup_tasks_announcements dry_run reg h ctx fs
  · intro env reg ctx dry_run fs
    exact ⟨_, _, _, clean_eq env reg ctx dry_run fs⟩

/-- Witness for C7 at a concrete input: with contributors registered in the
order `clean_docs`, `clean_extra`, the announcement lines appear in exactly
that order, and `clean` puts the whole contributor phase before its own
deleter output. -/
theorem c7_witness :
    (execute_cleanup_tasks ctxC regW false ⟨[]⟩).2.filter
        (fun l => pystr_startswith l "CLEANUP TASK: ") =
      ["CLEANUP TASK: clean_docs", "CLEANUP TASK: clean_extra"] ∧
    (∃ fsr dirsOut filesOut,
       clean envW regW ctxC false ⟨[]⟩ =
         Except.ok (merged_ctx ctxC, fsr,
           (execute_cleanup_tasks (merged_ctx ctxC) regW false ⟨[]⟩).2 ++
             dirsOut ++ filesOut)) := by
  constructor
  · refine c7_contributors_in_order_before_deleters.2.1 false regW ?_ ctxC ⟨[]⟩
    intro p hp c d s l hl
    rcases (by simpa [regW] using hp : p = ("clean_docs", contribA) ∨
        p = ("clean_extra", contribB)) with rfl | rfl
    · rcases (by simpa [contribA] using hl : l = "docs cleanup done") with rfl
      decide
    · exact absurd hl (by simp [contribB])
  · exact c7_contributors_in_order_before_deleters.2.2 envW regW ctxC false ⟨[]⟩

/-
Dry-run mode never changes the filesystem component of any loop state.
-/

theorem cleanup_dirs_step_dry_fs (env : CleanEnv) (st : DirState) (d : String) :
    (cleanup_dirs_step env true st d).1 = st.1 := by
  unfold cleanup_dirs_step
  repeat' split
  all_goals first | rfl | simp_all

theorem cleanup_dirs_run_dry_fs (env : CleanEnv) (workdir : String)
    (patterns : List String) : ∀ st : DirState,
    (cleanup_dirs_run env true workdir patterns st).1 = st.1 := by
  have hfold : ∀ (l : List String) (st : DirState),
      (l.foldl (cleanup_dirs_step env true) st).1 = st.1 := by
    intro l
    induction l with
    | nil => intro st; rfl
    | cons d ds ih =>
      intro st
      rw [List.foldl_cons, ih, cleanup_dirs_step_dry_fs]
  induction patterns with
  | nil => intro st; rfl
  | cons p ps ih =>
    intro st
    unfold cleanup_dirs_run
    rw [List.foldl_cons]
    exact (ih _).trans (hfold _ st)

theorem cleanup_files_step_dry_inv (env : CleanEnv) (st : FileState) (f : String) :
    (cleanup_files_step env true st f).1 = st.1 ∧
    (cleanup_files_step env true st f).2.2 = st.2.2 := by
  unfold cleanup_files_step
  repeat' split
  all_goals first | exact ⟨rfl, rfl⟩ | simp_all

theorem cleanup_files_run_dry_inv (env : CleanEnv) (workdir : String)
    (patterns : List String) : ∀ st : FileState,
    (cleanup_files_run env true workdir patterns st).1 = st.1 ∧
    (cleanup_files_run env true workdir patterns st).2.2 = st.2.2 := by
  have hfold : ∀ (l : List String) (st : FileState),
      (l.foldl (cleanup_files_step env true) st).1 = st.1 ∧
      (l.foldl (cleanup_files_step env true) st).2.2 = st.2.2 := by
    intro l
    induction l with
    | nil => intro st; exact ⟨rfl, rfl⟩
    | cons f fl ih =>
      intro st
      rw [List.foldl_cons]
      refine ⟨((ih _).1).trans (cleanup_files_step_dry_inv env st f).1,
              ((ih _).2).trans (cleanup_files_step_dry_inv env st f).2⟩
  induction patterns with
  | nil => intro st; exact ⟨rfl, rfl⟩
  | cons p ps ih =>
    intro st
    unfold cleanup_files_run
    rw [List.foldl_cons]
    exact ⟨((ih _).1).trans (hfold _ st).1, ((ih _).2).trans (hfold _ st).2⟩

/-
Contributor runs that do not touch the filesystem leave it unchanged.
-/

theorem execute_cleanup_tasks_pure (dry_run : Bool) (reg : Registry)
    (h : ∀ p ∈ reg, ∀ (c : Ctx) (s : FSState), ((p.2 : Contributor) c dry_run s).1 = s) :
    ∀ (ctx : Ctx) (fs : FSState),
      (execute_cleanup_tasks ctx reg dry_run fs).1 = fs := by
  induction reg with
  | nil => intro ctx fs; rfl
  | cons p rest ih =>
    intro ctx fs
    obtain ⟨name, t⟩ := p
    rw [execute_cleanup_tasks_cons]
    dsimp only
    rw [ih (fun q hq => h q (List.mem_cons_of_mem _ hq)) ctx _,
        h (name, t) (List.mem_cons_self _ _) ctx fs]

/-
Head-character reasoning about the dry-run suffix marker.
-/

theorem data_head_append (a x : String) (c : Char) (h : a.data.head? = some c) :
    (a ++ x).data.head? = some c := by
  rw [String.data_append]
  cases ha : a.data with
  | nil => rw [ha] at h; exact absurd h (by simp)
  | cons b bs =>
    rw [ha] at h
    simpa using h

theorem pystr_startswith_false_of_head {s p : String} {b c : Char}
    (hp : p.data.head? = some b) (hs : s.data.head? = some c) (hbc : b ≠ c) :
    pystr_startswith s p = false := by
  by_contra hcon
  have h' : pystr_startswith s p = true := by
    cases hval : pystr_startswith s p with
    | true => rfl
    | false => exact absurd hval hcon
  rw [pystr_startswith_iff] at h'
  cases hpd : p.data with
  | nil => rw [hpd] at hp; exact absurd hp (by simp)
  | cons pb pbs =>
    rw [hpd] at h' hp
    cases hsd : s.data with
    | nil =>
      rw [hsd] at h'
      exact absurd (List.prefix_nil.mp h') (by simp)
    | cons sb sbs =>
      rw [hsd] at h' hs
      rw [List.cons_prefix_cons] at h'
      apply hbc
      have hb : pb = b := by simpa using hp
      have hc : sb = c := by simpa using hs
      rw [← hb, ← hc]
      exact h'.1

theorem addDryRunSuffix_skip (x : String) :
    addDryRunSuffix ("SKIP-SUICIDE: \x27" ++ x) = "SKIP-SUICIDE: \x27" ++ x := by
  have h1 : "RMTREE: ".data.head? = some 'R' := by decide
  have h2 : "REMOVE: ".data.head? = some 'R' := by decide
  have hs : ("SKIP-SUICIDE: \x27" ++ x).data.head? = some 'S' :=
    data_head_append "SKIP-SUICIDE: \x27" x 'S' (by decide)
  unfold addDryRunSuffix
  rw [pystr_startswith_false_of_head h1 hs (by decide),
      pystr_startswith_false_of_head h2 hs (by decide)]
  rfl

theorem addDryRunSuffix_rmtree (d : String) :
    addDryRunSuffix ("RMTREE: " ++ d) = "RMTREE: " ++ d ++ " (dry-run)" := by
  unfold addDryRunSuffix
  rw [pystr_startswith_append]
  rfl

theorem addDryRunSuffix_remove (f : String) :
    addDryRunSuffix ("REMOVE: " ++ f) = "REMOVE: " ++ f ++ " (dry-run)" := by
  unfold addDryRunSuffix
  rw [pystr_startswith_append]
  by_cases h : pystr_startswith ("REMOVE: " ++ f) "RMTREE: " = true
  · rw [h]
    rfl
  · rw [Bool.not_eq_true] at h
    rw [h]
    rfl

/-
Line-for-line correspondence between a dry run and a real run of the
deleters, when no removal error occurs and glob expansion does not depend on
the filesystem state consumed so far.
-/

theorem addDryRunSuffix_skip2 (d r : String) :
    addDryRunSuffix ("SKIP-SUICIDE: \x27" ++ d ++ r) = "SKIP-SUICIDE: \x27" ++ d ++ r := by
  rw [String.append_assoc]
  exact addDryRunSuffix_skip (d ++ r)

theorem cleanup_dirs_step_dry_matches (env : CleanEnv) (d : String) (str std : DirState)
    (h1 : std.2.1 = str.2.1.map addDryRunSuffix) (h2 : std.2.2 = str.2.2) :
    (cleanup_dirs_step env true std d).2.1 =
      ((cleanup_dirs_step env false str d).2.1).map addDryRunSuffix ∧
    (cleanup_dirs_step env true std d).2.2 = (cleanup_dirs_step env false str d).2.2 := by
  unfold cleanup_dirs_step
  by_cases hc1 : pystr_startswith env.sys_executable (env.abspath d) = true
  · simp only [hc1, if_true]
    rw [List.map_append, h1, h2]
    exact ⟨by simp [addDryRunSuffix_skip2], rfl⟩
  · simp only [if_neg hc1]
    by_cases hc2 : pystr_startswith (env.abspath d) env.python_basedir = true
    · simp only [hc2, if_true]
      rw [h2]
      by_cases hw : str.2.2 ≤ 4
      · simp only [hw, if_true]
        rw [List.map_append, h1]
        exact ⟨by simp [addDryRunSuffix_skip2], trivial⟩
      · simp only [hw, if_false]
        exact ⟨h1, trivial⟩
    · simp only [if_neg hc2]
      simp only [if_true, Bool.false_eq_true, if_false]
      rw [List.map_append, h1, h2]
      exact ⟨by simp [addDryRunSuffix_rmtree], rfl⟩

theorem cleanup_dirs_fold_dry_matches (env : CleanEnv) (l : List String) :
    ∀ (str std : DirState),
      std.2.1 = str.2.1.map addDryRunSuffix → std.2.2 = str.2.2 →
      (l.foldl (cleanup_dirs_step env true) std).2.1 =
        ((l.foldl (cleanup_dirs_step env false) str).2.1).map addDryRunSuffix ∧
      (l.foldl (cleanup_dirs_step env true) std).2.2 =
        (l.foldl (cleanup_dirs_step env false) str).2.2 := by
  induction l with
  | nil => intro str std h1 h2; exact ⟨h1, h2⟩
  | cons d ds ih =>
    intro str std h1 h2
    rw [List.foldl_cons, List.foldl_cons]
    exact ih _ _ (cleanup_dirs_step_dry_matches env d str std h1 h2).1
      (cleanup_dirs_step_dry_matches env d str std h1 h2).2

theorem cleanup_dirs_run_dry_matches (env : CleanEnv) (workdir : String)
    (hg : ∀ (fs1 fs2 : FSState) (wd pat : String),
            env.path_glob fs1 wd pat = env.path_glob fs2 wd pat)
    (patterns : List String) :
    ∀ (str std : DirState),
      std.2.1 = str.2.1.map addDryRunSuffix → std.2.2 = str.2.2 →
      (cleanup_dirs_run env true workdir patterns std).2.1 =
        ((cleanup_dirs_run env false workdir patterns str).2.1).map addDryRunSuffix ∧
      (cleanup_dirs_run env true workdir patterns std).2.2 =
        (cleanup_dirs_run env false workdir patterns str).2.2 := by
  induction patterns with
  | nil => intro str std h1 h2; exact ⟨h1, h2⟩
  | cons p ps ih =>
    intro str std h1 h2
    unfold cleanup_dirs_run
    rw [List.foldl_cons, List.foldl_cons]
    have hgl : env.path_glob std.1 workdir p = env.path_glob str.1 workdir p :=
      hg std.1 str.1 workdir p
    rw [hgl]
    exact ih _ _
      (cleanup_dirs_fold_dry_matches env _ str std h1 h2).1
      (cleanup_dirs_fold_dry_matches env _ str std h1 h2).2

theorem cleanup_files_step_dry_matches (env : CleanEnv) (f : String)
    (herr : env.remove_error f = none) (str std : FileState)
    (h1 : std.2.1 = str.2.1.map addDryRunSuffix) (h2 : std.2.2 = str.2.2) :
    (cleanup_files_step env true std f).2.1 =
      ((cleanup_files_step env false str f).2.1).map addDryRunSuffix ∧
    (cleanup_files_step env true std f).2.2 = (cleanup_files_step env false str f).2.2 := by
  unfold cleanup_files_step
  by_cases hc1 : pystr_startswith (env.abspath f) env.python_basedir = true
  · simp only [hc1, if_true]
    exact ⟨h1, h2⟩
  · simp only [if_neg hc1]
    simp only [if_true, Bool.false_eq_true, if_false, herr]
    rw [List.map_append, h1, h2]
    exact ⟨by simp [addDryRunSuffix_remove], rfl⟩

theorem cleanup_files_fold_dry_matches (env : CleanEnv) (l : List String)
    (herr : ∀ f, env.remove_error f = none) :
    ∀ (str std : FileState),
      std.2.1 = str.2.1.map addDryRunSuffix → std.2.2 = str.2.2 →
      (l.foldl (cleanup_files_step env true) std).2.1 =
        ((l.foldl (cleanup_files_step env false) str).2.1).map addDryRunSuffix ∧
      (l.foldl (cleanup_files_step env true) std).2.2 =
        (l.foldl (cleanup_files_step env false) str).2.2 := by
  induction l with
  | nil => intro str std h1 h2; exact ⟨h1, h2⟩
  | cons f fl ih =>
    intro str std h1 h2
    rw [List.foldl_cons, List.foldl_cons]
    exact ih _ _ (cleanup_files_step_dry_matches env f (herr f) str std h1 h2).1
      (cleanup_files_step_dry_matches env f (herr f) str std h1 h2).2

theorem cleanup_files_run_dry_matches (env : CleanEnv) (workdir : String)
    (hg : ∀ (fs1 fs2 : FSState) (wd pat : String),
            env.path_glob fs1 wd pat = env.path_glob fs2 wd pat)
    (herr : ∀ f, env.remove_error f = none)
    (patterns : List String) :
    ∀ (str std : FileState),
      std.2.1 = str.2.1.map addDryRunSuffix → std.2.2 = str.2.2 →
      (cleanup_files_run env true workdir patterns std).2.1 =
        ((cleanup_files_run env false workdir patterns str).2.1).map addDryRunSuffix ∧
      (cleanup_files_run env true workdir patterns std).2.2 =
        (cleanup_files_run env false workdir patterns str).2.2 := by
  induction patterns with
  | nil => intro str std h1 h2; exact ⟨h1, h2⟩
  | cons p ps ih =>
    intro str std h1 h2
    unfold cleanup_files_run
    rw [List.foldl_cons, List.foldl_cons]
    have hgl : env.path_glob std.1 workdir p = env.path_glob str.1 workdir p :=
      hg std.1 str.1 workdir p
    rw [hgl]
    exact ih _ _
      (cleanup_files_fold_dry_matches env _ herr str std h1 h2).1
      (cleanup_files_fold_dry_matches env _ herr str std h1 h2).2

theorem cleanup_dirs_dry_fs (env : CleanEnv) (patterns : List String)
    (workdir : String) (fs : FSState) :
    (cleanup_dirs env patterns true workdir fs).1 = fs :=
  cleanup_dirs_run_dry_fs env workdir patterns (fs, [], 0)

theorem cleanup_files_run_dry_fs (env : CleanEnv) (workdir : String)
    (patterns : List String) (st : FileState) :
    (cleanup_files_run env true workdir patterns st).1 = st.1 :=
  (cleanup_files_run_dry_inv env workdir patterns st).1

/-- Counterexample to claim C3 as stated: on a locked file, the dry run
prints one line while the real run prints two (the REMOVE line plus the
error diagnostic), so the stdout lines are not identical modulo the
`(dry-run)` suffix — though the filesystem is indeed untouched in both. -/
theorem c3_counterexample :
    cleanup_files envErr ["/work/locked.txt"] true "." ⟨["/work/locked.txt"]⟩ =
      Except.ok (⟨["/work/locked.txt"]⟩, ["REMOVE: /work/locked.txt (dry-run)"], 0, none) ∧
    cleanup_files envErr ["/work/locked.txt"] false "." ⟨["/work/locked.txt"]⟩ =
      Except.ok (⟨["/work/locked.txt"]⟩,
        ["REMOVE: /work/locked.txt",
         "OSError: [Errno 13] Permission denied: /work/locked.txt basedir: /env"],
        1, some "OSError: [Errno 13] Permission denied: /work/locked.txt") ∧
    ¬ (["REMOVE: /work/locked.txt (dry-run)"] =
        (["REMOVE: /work/locked.txt",
          "OSError: [Errno 13] Permission denied: /work/locked.txt basedir: /env"].map
            addDryRunSuffix)) := by
  refine ⟨by rfl, by rfl, ?_⟩
  intro h
  exact absurd (congrArg List.length h) (by decide)

/-- Claim C3, amended: every clean operation with `dry_run = true` performs
no filesystem mutation (for the orchestrators, granted that registered
contributors honor dry-run, since they are arbitrary external callables);
and — provided no removal error occurs and glob expansion does not depend on
the intermediate filesystem states — the deleter stdout lines of a dry run
are exactly the lines of the real run with `(dry-run)` appended to each
RMTREE/REMOVE line.  (The unqualified line-for-line claim is false: a failed
unlink prints an extra diagnostic line only in the real run.) -/
theorem c3_dry_run_no_mutation :
    (∀ (env : CleanEnv) (patterns : List String) (workdir : String) (fs : FSState),
       (cleanup_dirs env patterns true workdir fs).1 = fs) ∧
    (∀ (env : CleanEnv) (patterns : List String) (workdir : String) (fs : FSState),
       ∃ st, cleanup_files env patterns true workdir fs = Except.ok st ∧
         st.1 = fs ∧ st.2.2.1 = 0 ∧ st.2.2.2 = none) ∧
    (∀ (env : CleanEnv) (reg : Registry) (ctx : Ctx) (fs : FSState),
       (∀ p ∈ reg, ∀ (c : Ctx) (s : FSState), ((p.2 : Contributor) c true s).1 = s) →
       ∃ st, clean env reg ctx true fs = Except.ok st ∧ st.2.1 = fs) ∧
    (∀ (env : CleanEnv) (reg1 reg2 : Registry) (ctx : Ctx) (fs : FSState),
       (∀ p ∈ reg1, ∀ (c : Ctx) (s : FSState), ((p.2 : Contributor) c true s).1 = s) →
       (∀ p ∈ reg2, ∀ (c : Ctx) (s : FSState), ((p.2 : Contributor) c true s).1 = s) →
       ∃ st, clean_all env reg1 reg2 ctx true fs = Except.ok st ∧ st.2.1 = fs) ∧
    (∀ (env : CleanEnv) (fs : FSState),
       ∃ st, clean_python env true fs = Except.ok st ∧ st.1 = fs) ∧
    (∀ (env : CleanEnv) (patterns : List String) (workdir : String) (fs : FSState),
       (∀ (fs1 fs2 : FSState) (wd pat : String),
          env.path_glob fs1 wd pat = env.path_glob fs2 wd pat) →
       (cleanup_dirs env patterns true workdir fs).2 =
         ((cleanup_dirs env patterns false workdir fs).2).map addDryRunSuffix) ∧
    (∀ (env : CleanEnv) (patterns : List String) (workdir : String) (fs : FSState),
       (∀ (fs1 fs2 : FSState) (wd pat : String),
          env.path_glob fs1 wd pat = env.path_glob fs2 wd pat) →
       (∀ f, env.remove_error f = none) →
       ∃ std str, cleanup_files env patterns true workdir fs = Except.ok std ∧
         cleanup_files env patterns false workdir fs = Except.ok str ∧
         std.2.1 = str.2.1.map addDryRunSuffix) := by
  refine ⟨?_, ?_, ?_, ?_, ?_, ?_, ?_⟩
  · intro env patterns workdir fs
    exact cleanup_dirs_dry_fs env patterns workdir fs
  · intro env patterns workdir fs
    refine ⟨_, cleanup_files_eq_ok env patterns true workdir fs,
      cleanup_files_run_dry_fs env workdir patterns _, ?_, ?_⟩
    · rw [(cleanup_files_run_dry_inv env workdir patterns (fs, [], 0, none)).2]
    · rw [(cleanup_files_run_dry_inv env workdir patterns (fs, [], 0, none)).2]
  · intro env reg ctx fs h
    refine ⟨_, clean_eq env reg ctx true fs, ?_⟩
    rw [cleanup_files_run_dry_fs, cleanup_dirs_dry_fs,
        execute_cleanup_tasks_pure true reg h]
  · intro env reg1 reg2 ctx fs h1 h2
    simp only [clean_all, cleanup_files_eq_ok, clean_eq]
    refine ⟨_, rfl, ?_⟩
    simp only [cleanup_files_run_dry_fs, cleanup_dirs_dry_fs,
        execute_cleanup_tasks_pure true reg1 h1,
        execute_cleanup_tasks_pure true reg2 h2]
  · intro env fs
    simp only [clean_python, cleanup_files_eq_ok]
    simp only [if_true]
    refine ⟨_, rfl, ?_⟩
    simp only [cleanup_files_run_dry_fs, cleanup_dirs_dry_fs]
  · intro env patterns workdir fs hg
    exact (cleanup_dirs_run_dry_matches env workdir hg patterns
      (fs, [], 0) (fs, [], 0) rfl rfl).1
  · intro env patterns workdir fs hg herr
    exact ⟨_, _, cleanup_files_eq_ok env patterns true workdir fs,
      cleanup_files_eq_ok env patterns false workdir fs,
      (cleanup_files_run_dry_matches env workdir hg herr patterns
        (fs, [], 0, none) (fs, [], 0, none) rfl rfl).1⟩

/-- Witness for C3 (amended) at concrete inputs: a dry `clean` with both
concrete contributors leaves the filesystem untouched; a dry directory run
prints the RMTREE line of the real run with the suffix appended; same for a dry
file run. -/
theorem c3_witness :
    (∃ st, clean envW regW ctxC true ⟨["a.log"]⟩ = Except.ok st ∧
       st.2.1 = (⟨["a.log"]⟩ : FSState)) ∧
    (cleanup_dirs envW ["/work/tmp"] true "." ⟨["/work/tmp"]⟩).2 =
      ((cleanup_dirs envW ["/work/tmp"] false "." ⟨["/work/tmp"]⟩).2).map addDryRunSuffix ∧
    (∃ std str, cleanup_files envW ["a.log"] true "." ⟨["a.log"]⟩ = Except.ok std ∧
       cleanup_files envW ["a.log"] false "." ⟨["a.log"]⟩ = Except.ok str ∧
       std.2.1 = str.2.1.map addDryRunSuffix) :=
  ⟨c3_dry_run_no_mutation.2.2.1 envW regW ctxC ⟨["a.log"]⟩
      (by
        intro p hp c s
        rcases (by simpa [regW] using hp : p = ("clean_docs", contribA) ∨
            p = ("clean_extra", contribB)) with rfl | rfl
        · rfl
        · rfl),
   c3_dry_run_no_mutation.2.2.2.2.2.1 envW ["/work/tmp"] "." ⟨["/work/tmp"]⟩
      (fun _ _ _ _ => rfl),
   c3_dry_run_no_mutation.2.2.2.2.2.2 envW ["a.log"] "." ⟨["a.log"]⟩
      (fun _ _ _ _ => rfl) (fun _ => rfl)⟩

/-
Idempotence machinery.  After a real `cleanup_dirs` run, every candidate a
later glob (over any shrunken state) can produce for one of the same
patterns is either gate-skipped or no longer exists; a run whose candidates
are all gate-skipped leaves the filesystem unchanged.
-/

theorem cleanup_dirs_step_skip_fs (env : CleanEnv) (dry_run : Bool) (st : DirState)
    (d : String) (h : dir_gate_skips env d = true) :
    (cleanup_dirs_step env dry_run st d).1 = st.1 := by
  unfold cleanup_dirs_step
  rcases Bool.or_eq_true_iff.mp (by simpa [dir_gate_skips] using h) with h1 | h2
  · simp only [h1, if_true]
  · by_cases h1 : pystr_startswith env.sys_executable (env.abspath d) = true
    · simp only [h1, if_true]
    · simp only [if_neg h1, h2, if_true]

theorem cleanup_dirs_fold_gone (env : CleanEnv) (l : List String) (c : String) :
    ∀ st : DirState, c ∈ l →
      dir_gate_skips env c = true ∨
      env.abspath c ∉ (l.foldl (cleanup_dirs_step env false) st).1.entries := by
  induction l with
  | nil => intro st hc; exact absurd hc (List.not_mem_nil c)
  | cons d ds ih =>
    intro st hc
    rw [List.foldl_cons]
    rcases List.mem_cons.mp hc with rfl | hmem
    · by_cases hg : dir_gate_skips env c = true
      · exact Or.inl hg
      · right
        intro hfin
        have hstep : env.abspath c ∉ (cleanup_dirs_step env false st c).1.entries := by
          have hg' := hg
          simp only [dir_gate_skips, Bool.or_eq_true_iff, not_or, Bool.not_eq_true] at hg'
          unfold cleanup_dirs_step
          simp only [hg'.1, hg'.2, Bool.false_eq_true, if_false]
          exact not_mem_rmtree_p_self st.1 (env.abspath c)
        exact hstep (cleanup_dirs_fold_subset env false ds _ hfin)
    · exact ih (cleanup_dirs_step env false st d) hmem

theorem cleanup_dirs_run_gone (env : CleanEnv) (workdir : String)
    (hm : ∀ (fs fs' : FSState) (wd pat : String), fs'.entries ⊆ fs.entries →
            ∀ p ∈ env.path_glob fs' wd pat, p ∈ env.path_glob fs wd pat) :
    ∀ (patterns : List String) (st : DirState) (q : String) (fsG : FSState) (c : String),
      q ∈ patterns →
      fsG.entries ⊆ (cleanup_dirs_run env false workdir patterns st).1.entries →
      c ∈ env.path_glob fsG workdir q →
      dir_gate_skips env c = true ∨
        env.abspath c ∉ (cleanup_dirs_run env false workdir patterns st).1.entries := by
  intro patterns
  induction patterns with
  | nil => intro st q fsG c hq; exact absurd hq (List.not_mem_nil q)
  | cons p ps ih =>
    intro st q fsG c hq hsub hc
    have hrun : cleanup_dirs_run env false workdir (p :: ps) st =
        cleanup_dirs_run env false workdir ps
          ((env.path_glob st.1 workdir p).foldl (cleanup_dirs_step env false) st) := rfl
    rcases List.mem_cons.mp hq with rfl | hmem
    · -- the pattern is the head: the candidate was already a candidate then
      have hsub1 : fsG.entries ⊆ st.1.entries := by
        intro e he
        exact cleanup_dirs_fold_subset env false _ st
          (cleanup_dirs_run_subset env false workdir ps _ (by rw [← hrun]; exact hsub he))
      have hc1 : c ∈ env.path_glob st.1 workdir q := hm st.1 fsG workdir q hsub1 c hc
      rcases cleanup_dirs_fold_gone env (env.path_glob st.1 workdir q) c st hc1 with hg | hnot
      · exact Or.inl hg
      · right
        rw [hrun]
        intro hfin
        exact hnot (cleanup_dirs_run_subset env false workdir ps _ hfin)
    · rw [hrun] at hsub ⊢
      exact ih _ q fsG c hmem hsub hc

theorem cleanup_dirs_fold_allskip (env : CleanEnv) (l : List String)
    (h : ∀ c ∈ l, dir_gate_skips env c = true) :
    ∀ st : DirState, (l.foldl (cleanup_dirs_step env false) st).1 = st.1 := by
  induction l with
  | nil => intro st; rfl
  | cons d ds ih =>
    intro st
    rw [List.foldl_cons]
    rw [ih (fun c hc => h c (List.mem_cons_of_mem _ hc)) _,
        cleanup_dirs_step_skip_fs env false st d (h d (List.mem_cons_self _ _))]

theorem cleanup_dirs_run_noop (env : CleanEnv) (workdir : String)
    (hm : ∀ (fs fs' : FSState) (wd pat : String), fs'.entries ⊆ fs.entries →
            ∀ p ∈ env.path_glob fs' wd pat, p ∈ env.path_glob fs wd pat)
    (hsound : ∀ (fs : FSState) (wd pat : String), ∀ p ∈ env.path_glob fs wd pat,
                env.abspath p ∈ fs.entries)
    (patterns : List String) (st : DirState) (fsG : FSState)
    (hsub : fsG.entries ⊆ (cleanup_dirs_run env false workdir patterns st).1.entries) :
    ∀ (qats : List String), (∀ q ∈ qats, q ∈ patterns) →
    ∀ st2 : DirState, st2.1 = fsG →
      (cleanup_dirs_run env false workdir qats st2).1 = fsG := by
  intro qats
  induction qats with
  | nil => intro _ st2 h2; exact h2
  | cons q qs ih =>
    intro hq st2 h2
    have hstep : ((env.path_glob st2.1 workdir q).foldl (cleanup_dirs_step env false) st2).1 =
        fsG := by
      rw [cleanup_dirs_fold_allskip env _ ?_ st2]
      · exact h2
      · intro c hc
        rw [h2] at hc
        rcases cleanup_dirs_run_gone env workdir hm patterns st q fsG c
            (hq q (List.mem_cons_self _ _)) hsub hc with hg | hnot
        · exact hg
        · exact absurd (hsub (hsound fsG workdir q c hc)) hnot
    exact ih (fun r hr => hq r (List.mem_cons_of_mem _ hr)) _ hstep

theorem cleanup_files_step_handled_fs (env : CleanEnv) (dry_run : Bool) (st : FileState)
    (f : String) (h : file_handled env f = true) :
    (cleanup_files_step env dry_run st f).1 = st.1 := by
  unfold cleanup_files_step
  rcases Bool.or_eq_true_iff.mp (by simpa [file_handled] using h) with h1 | h2
  · simp only [file_gate_skips] at h1
    simp only [h1, if_true]
  · by_cases h1 : pystr_startswith (env.abspath f) env.python_basedir = true
    · simp only [h1, if_true]
    · simp only [if_neg h1]
      cases hd : dry_run with
      | true => rfl
      | false =>
        simp only [Bool.false_eq_true, if_false]
        cases herr : env.remove_error f with
        | none => rw [herr] at h2; exact absurd h2 (by simp)
        | some e => rfl

theorem cleanup_files_fold_gone (env : CleanEnv) (l : List String) (c : String) :
    ∀ st : FileState, c ∈ l →
      file_handled env c = true ∨
      env.abspath c ∉ (l.foldl (cleanup_files_step env false) st).1.entries := by
  induction l with
  | nil => intro st hc; exact absurd hc (List.not_mem_nil c)
  | cons f fl ih =>
    intro st hc
    rw [List.foldl_cons]
    rcases List.mem_cons.mp hc with rfl | hmem
    · by_cases hg : file_handled env c = true
      · exact Or.inl hg
      · right
        intro hfin
        have hstep : env.abspath c ∉ (cleanup_files_step env false st c).1.entries := by
          have hg' := hg
          simp only [file_handled, file_gate_skips, Bool.or_eq_true_iff, not_or,
            Bool.not_eq_true] at hg'
          have hnone : env.remove_error c = none := by
            cases hoe : env.remove_error c with
            | none => rfl
            | some e => rw [hoe] at hg'; exact absurd hg'.2 (by simp)
          unfold cleanup_files_step
          simp only [hg'.1, Bool.false_eq_true, if_false, hnone]
          exact not_mem_remove_p_self st.1 (env.abspath c)
        exact hstep (cleanup_files_fold_subset env false fl _ hfin)
    · exact ih (cleanup_files_step env false st f) hmem

theorem cleanup_files_run_gone (env : CleanEnv) (workdir : String)
    (hm : ∀ (fs fs' : FSState) (wd pat : String), fs'.entries ⊆ fs.entries →
            ∀ p ∈ env.path_glob fs' wd pat, p ∈ env.path_glob fs wd pat) :
    ∀ (patterns : List String) (st : FileState) (q : String) (fsG : FSState) (c : String),
      q ∈ patterns →
      fsG.entries ⊆ (cleanup_files_run env false workdir patterns st).1.entries →
      c ∈ env.path_glob fsG workdir q →
      file_handled env c = true ∨
        env.abspath c ∉ (cleanup_files_run env false workdir patterns st).1.entries := by
  intro patterns
  induction patterns with
  | nil => intro st q fsG c hq; exact absurd hq (List.not_mem_nil q)
  | cons p ps ih =>
    intro st q fsG c hq hsub hc
    have hrun : cleanup_files_run env false workdir (p :: ps) st =
        cleanup_files_run env false workdir ps
          ((env.path_glob st.1 workdir p).foldl (cleanup_files_step env false) st) := rfl
    rcases List.mem_cons.mp hq with rfl | hmem
    · have hsub1 : fsG.entries ⊆ st.1.entries := by
        intro e he
        exact cleanup_files_fold_subset env false _ st
          (cleanup_files_run_subset env false workdir ps _ (by rw [← hrun]; exact hsub he))
      have hc1 : c ∈ env.path_glob st.1 workdir q := hm st.1 fsG workdir q hsub1 c hc
      rcases cleanup_files_fold_gone env (env.path_glob st.1 workdir q) c st hc1 with hg | hnot
      · exact Or.inl hg
      · right
        rw [hrun]
        intro hfin
        exact hnot (cleanup_files_run_subset env false workdir ps _ hfin)
    · rw [hrun] at hsub ⊢
      exact ih _ q fsG c hmem hsub hc

theorem cleanup_files_fold_allhandled (env : CleanEnv) (l : List String)
    (h : ∀ c ∈ l, file_handled env c = true) :
    ∀ st : FileState, (l.foldl (cleanup_files_step env false) st).1 = st.1 := by
  induction l with
  | nil => intro st; rfl
  | cons f fl ih =>
    intro st
    rw [List.foldl_cons]
    rw [ih (fun c hc => h c (List.mem_cons_of_mem _ hc)) _,
        cleanup_files_step_handled_fs env false st f (h f (List.mem_cons_self _ _))]

theorem cleanup_files_run_noop (env : CleanEnv) (workdir : String)
    (hm : ∀ (fs fs' : FSState) (wd pat : String), fs'.entries ⊆ fs.entries →
            ∀ p ∈ env.path_glob fs' wd pat, p ∈ env.path_glob fs wd pat)
    (hsound : ∀ (fs : FSState) (wd pat : String), ∀ p ∈ env.path_glob fs wd pat,
                env.abspath p ∈ fs.entries)
    (patterns : List String) (st : FileState) (fsG : FSState)
    (hsub : fsG.entries ⊆ (cleanup_files_run env false workdir patterns st).1.entries) :
    ∀ (qats : List String), (∀ q ∈ qats, q ∈ patterns) →
    ∀ st2 : FileState, st2.1 = fsG →
      (cleanup_files_run env false workdir qats st2).1 = fsG := by
  intro qats
  induction qats with
  | nil => intro _ st2 h2; exact h2
  | cons q qs ih =>
    intro hq st2 h2
    have hstep : ((env.path_glob st2.1 workdir q).foldl (cleanup_files_step env false) st2).1 =
        fsG := by
      rw [cleanup_files_fold_allhandled env _ ?_ st2]
      · exact h2
      · intro c hc
        rw [h2] at hc
        rcases cleanup_files_run_gone env workdir hm patterns st q fsG c
            (hq q (List.mem_cons_self _ _)) hsub hc with hg | hnot
        · exact hg
        · exact absurd (hsub (hsound fsG workdir q c hc)) hnot
    exact ih (fun r hr => hq r (List.mem_cons_of_mem _ hr)) _ hstep

/-- Claim C9: running `clean` twice in succession (same configuration, no
intervening filesystem changes) produces the same final filesystem state as
running it once — deletion of a nonexistent target is tolerated, every
still-matching candidate of the second run is gate-skipped or already gone.
Hypotheses model the external collaborators: glob expansion is monotone in
the filesystem and only produces existing paths, and the registered
contributors do not themselves change the filesystem. -/
theorem c9_clean_twice_idempotent (env : CleanEnv) (reg : Registry)
    (hm : ∀ (fs fs' : FSState) (wd pat : String), fs'.entries ⊆ fs.entries →
            ∀ p ∈ env.path_glob fs' wd pat, p ∈ env.path_glob fs wd pat)
    (hsound : ∀ (fs : FSState) (wd pat : String), ∀ p ∈ env.path_glob fs wd pat,
                env.abspath p ∈ fs.entries)
    (hpure : ∀ p ∈ reg, ∀ (c : Ctx) (d : Bool) (s : FSState),
               ((p.2 : Contributor) c d s).1 = s) :
    ∀ (ctx : Ctx) (fs : FSState) (ctx1 : Ctx) (fs1 : FSState) (o1 : List String),
      clean env reg ctx false fs = Except.ok (ctx1, fs1, o1) →
      ∃ ctx2 o2, clean env reg ctx1 false fs1 = Except.ok (ctx2, fs1, o2) := by
  intro ctx fs ctx1 fs1 o1 h
  have hp0 : ∀ p ∈ reg, ∀ (c : Ctx) (s : FSState), ((p.2 : Contributor) c false s).1 = s :=
    fun p hp c s => hpure p hp c false s
  rw [clean_eq, execute_cleanup_tasks_pure false reg hp0] at h
  have h2 := h
  simp only [Except.ok.injEq, Prod.mk.injEq] at h2
  obtain ⟨hc, hf, _⟩ := h2
  subst hc
  have hsubF : fs1.entries ⊆
      (cleanup_dirs_run env false "." (merged_ctx ctx).clean.directories
        (fs, [], 0)).1.entries := by
    intro e he
    rw [← hf] at he
    exact cleanup_files_run_subset env false "." (merged_ctx ctx).clean.files _ he
  have hqd : ∀ q ∈ (merged_ctx (merged_ctx ctx)).clean.directories,
      q ∈ (merged_ctx ctx).clean.directories := by
    intro q hq
    simp only [merged_ctx, List.mem_append] at hq ⊢
    tauto
  have hD2 : (cleanup_dirs env (merged_ctx (merged_ctx ctx)).clean.directories
      false "." fs1).1 = fs1 :=
    cleanup_dirs_run_noop env "." hm hsound (merged_ctx ctx).clean.directories
      (fs, [], 0) fs1 hsubF (merged_ctx (merged_ctx ctx)).clean.directories hqd
      (fs1, [], 0) rfl
  have hqf : ∀ q ∈ (merged_ctx (merged_ctx ctx)).clean.files,
      q ∈ (merged_ctx ctx).clean.files := by
    intro q hq
    simp only [merged_ctx, List.mem_append] at hq ⊢
    tauto
  have hF2 : (cleanup_files_run env false "." (merged_ctx (merged_ctx ctx)).clean.files
      (fs1, [], 0, none)).1 = fs1 :=
    cleanup_files_run_noop env "." hm hsound (merged_ctx ctx).clean.files
      ((cleanup_dirs env (merged_ctx ctx).clean.directories false "." fs).1, [], 0, none) fs1
      (fun e he => by rw [hf]; exact he)
      (merged_ctx (merged_ctx ctx)).clean.files hqf (fs1, [], 0, none) rfl
  have hclean2 : clean env reg (merged_ctx ctx) false fs1 =
      Except.ok (merged_ctx (merged_ctx ctx), fs1,
        (execute_cleanup_tasks (merged_ctx (merged_ctx ctx)) reg false fs1).2 ++
          (cleanup_dirs env (merged_ctx (merged_ctx ctx)).clean.directories
            false "." fs1).2 ++
          (cleanup_files_run env false "." (merged_ctx (merged_ctx ctx)).clean.files
            (fs1, [], 0, none)).2.1) := by
    rw [clean_eq, execute_cleanup_tasks_pure false reg hp0, hD2, hF2]
  exact ⟨merged_ctx (merged_ctx ctx), _, hclean2⟩

/-- Witness for C9 at a concrete input: under an existence-checking glob,
the first `clean` removes `/work/a.log`; applying the idempotence theorem to
that run yields that a second `clean` leaves the filesystem at
`/keep.txt` only. -/
theorem c9_witness :
    ∃ ctx2 o2,
      clean envSound [] (⟨⟨[], ["/work/a.log"], [], []⟩, ⟨[], []⟩⟩ : Ctx) false
          ⟨["/keep.txt"]⟩ =
        Except.ok (ctx2, (⟨["/keep.txt"]⟩ : FSState), o2) :=
  c9_clean_twice_idempotent envSound []
    (by
      intro fs fs' wd pat hsub p hp
      by_cases h : pat ∈ fs'.entries
      · simp only [envSound, h, if_true] at hp
        have h2 : pat ∈ fs.entries := hsub h
        simp only [envSound, h2, if_true]
        exact hp
      · simp [envSound, h] at hp)
    (by
      intro fs wd pat p hp
      by_cases h : pat ∈ fs.entries
      · simp only [envSound, h, if_true, List.mem_singleton] at hp
        subst hp
        exact h
      · simp [envSound, h] at hp)
    (fun p hp => absurd hp (List.not_mem_nil p))
    ctxS ⟨["/work/a.log", "/keep.txt"]⟩
    (⟨⟨[], ["/work/a.log"], [], []⟩, ⟨[], []⟩⟩ : Ctx) ⟨["/keep.txt"]⟩
    ["REMOVE: /work/a.log"]
    (by rfl)
